import Mathlib

/-!
A shallow embedding of the professor-resolution backend (`main.py` of the
ratemyprofessor-uwtacoma repository), together with proofs about its
components: the name matcher (`search_professor`, lines 75-123), the review
sanitizer inside `fetch_reviews` (lines 126-170), the moderation helper
`is_abusive` (lines 187-203), the summarizer `summarize_reviews` /
`_fallback_summary` (lines 206-233), the cache key `_cache_key` (lines
239-240) and the orchestrating endpoint `get_professor` (lines 245-284).

Python strings are modelled as `List Char` with executable translations of
the string methods the source uses (`lower`, `upper`, `strip`, `split`,
slicing, and `re.sub(r"\s+", " ", ·)`).  JSON numbers are modelled as `ℚ`;
`round(x, 1)` is modelled as rounding to the nearest tenth (computed on
numerator/denominator so that the kernel can evaluate it; Python's
float tie-breaking is not exercised by any theorem below).  The two
external collaborators (the review-site GraphQL endpoint and the
moderation/generation model) are modelled as an oracle `World`; every
external request the code would issue is recorded as an `ExtCall`.
-/

namespace RMP

/-- Python strings, modelled as lists of characters. -/
abbrev PyStr := List Char

/-- Convert a Lean string literal into the model's string type. -/
def toPy (s : String) : PyStr := s.data

/-- The ASCII characters Python's `str.strip` / `str.split` / `\s` treat as
whitespace. -/
def pyIsSpace (c : Char) : Bool :=
  c == ' ' || c == '\t' || c == '\n' || c == '\r' || c == '\x0b' || c == '\x0c'

/-- `str.lower` on one ASCII character. -/
def pyLowerChar (c : Char) : Char :=
  if 'A' ≤ c ∧ c ≤ 'Z' then Char.ofNat (c.toNat + 32) else c

/-- `str.upper` on one ASCII character. -/
def pyUpperChar (c : Char) : Char :=
  if 'a' ≤ c ∧ c ≤ 'z' then Char.ofNat (c.toNat - 32) else c

/-- Python `str.lower`. -/
def pyLower (s : PyStr) : PyStr := s.map pyLowerChar

/-- Python `str.upper`. -/
def pyUpper (s : PyStr) : PyStr := s.map pyUpperChar

/-- Python `str.strip()`: drop leading and trailing whitespace. -/
def pyStrip (s : PyStr) : PyStr :=
  ((s.dropWhile pyIsSpace).reverse.dropWhile pyIsSpace).reverse

/-- Helper for `pySplit`: `acc` holds the (reversed) token being read. -/
def pySplitAux : PyStr → PyStr → List PyStr
  | acc, [] => if acc = [] then [] else [acc.reverse]
  | acc, c :: rest =>
    if pyIsSpace c then
      if acc = [] then pySplitAux [] rest else acc.reverse :: pySplitAux [] rest
    else pySplitAux (c :: acc) rest

/-- Python `str.split()` with no argument: maximal runs of non-whitespace
characters, with no empty tokens. -/
def pySplit (s : PyStr) : List PyStr := pySplitAux [] s

/-- Helper for `collapseWs`: the flag records whether the previous character
was part of a whitespace run already replaced by a single space. -/
def collapseWsAux : Bool → PyStr → PyStr
  | _, [] => []
  | prevWs, c :: rest =>
    if pyIsSpace c then
      if prevWs then collapseWsAux true rest
      else ' ' :: collapseWsAux true rest
    else c :: collapseWsAux false rest

/-- `re.sub(r"\s+", " ", s)`: replace every whitespace run by one space. -/
def collapseWs (s : PyStr) : PyStr := collapseWsAux false s

/-- A JSON scalar as Python sees it: null/absent, a number, or a string.
Used for the `qualityRating` field, whose sanitization must tolerate
malformed values. -/
inductive PyVal where
  | none : PyVal
  | num : ℚ → PyVal
  | str : PyStr → PyVal
deriving DecidableEq

/-- Python truthiness of a `PyVal` (`None`, `0` and `""` are falsy). -/
def pyTruthyVal : PyVal → Bool
  | PyVal.none => false
  | PyVal.num q => decide (q ≠ 0)
  | PyVal.str s => decide (s ≠ [])

/-- Python `a or b`. -/
def pyOr (v d : PyVal) : PyVal := if pyTruthyVal v then v else d

/-- Value of a run of decimal digits. -/
def digitsToNat (s : PyStr) : Nat := s.foldl (fun a c => a * 10 + (c.toNat - 48)) 0

/-- Parse an unsigned Python float literal of the form `digits`,
`digits.digits`, `digits.` or `.digits`.  (Exponents and `inf`/`nan` are
omitted from the model; no theorem depends on which exotic strings parse,
only that plain non-numeric text such as `"abc"` does not.) -/
def parseUnsigned (s : PyStr) : Option ℚ :=
  let ip := s.takeWhile Char.isDigit
  match s.dropWhile Char.isDigit with
  | [] => if ip = [] then Option.none else Option.some (mkRat (digitsToNat ip) 1)
  | c :: r2 =>
    if c == '.' then
      let fp := r2.takeWhile Char.isDigit
      if r2.dropWhile Char.isDigit = [] then
        if ip = [] ∧ fp = [] then Option.none
        else Option.some (mkRat (digitsToNat ip * 10 ^ fp.length + digitsToNat fp) (10 ^ fp.length))
      else Option.none
    else Option.none

/-- Python `float(...)` applied to a string: strip whitespace, optional
sign, then an unsigned float literal. -/
def pyParseFloat (s : PyStr) : Option ℚ :=
  match pyStrip s with
  | '-' :: r => (parseUnsigned r).map Neg.neg
  | '+' :: r => parseUnsigned r
  | t => parseUnsigned t

/-- Python `float(v)` on a JSON scalar; `Except.error` models a raised
`TypeError`/`ValueError`. -/
def pyFloatOf : PyVal → Except Unit ℚ
  | PyVal.num q => Except.ok q
  | PyVal.str s =>
    match pyParseFloat s with
    | Option.some q => Except.ok q
    | Option.none => Except.error ()
  | PyVal.none => Except.error ()

/-- Python truthiness of an optional number (`prof.get(...)` patterns in
`get_professor`): absent and `0` are both falsy. -/
def pyTruthyOQ : Option ℚ → Bool
  | Option.none => false
  | Option.some q => decide (q ≠ 0)

/-- `round(x, 1)`: round to the nearest tenth.  Computed on the numerator
and denominator so it evaluates inside the kernel:
`⌊10 * q + 1/2⌋ / 10 = (20 * num + den) / (2 * den) / 10`. -/
def round1 (q : ℚ) : ℚ := mkRat (Int.fdiv (q.num * 20 + (q.den : Int)) ((q.den : Int) * 2)) 10

/-- One `node` of the professor-search response (main.py lines 82-91). -/
structure Candidate where
  id : PyStr
  firstName : PyStr
  lastName : PyStr
  rating : ℚ
  difficulty : Option ℚ
  wouldTakeAgainPercent : Option ℚ
  numRatings : Int
  department : Option PyStr
deriving DecidableEq

/-- One raw review `node` of the ratings response (main.py lines 134-139). -/
structure RawNode where
  comment : Option PyStr
  qualityRating : PyVal
  classLabel : Option PyStr
  date : Option PyStr
deriving DecidableEq

/-- The sanitized review shape (`Review` model, main.py lines 55-59). -/
structure Review where
  rating : ℚ
  text : PyStr
  course : Option PyStr
  date : Option PyStr
deriving DecidableEq

/-- The response / cache-entry shape (`ProfessorData`, main.py lines 62-70). -/
structure ProfessorData where
  name : PyStr
  rating : ℚ
  difficulty : Option ℚ
  wouldTakeAgain : Option ℚ
  numRatings : Int
  department : Option PyStr
  summary : PyStr
  reviews : List Review
deriving DecidableEq

/-- An external request issued by the pipeline, with the payload that was
submitted. -/
inductive ExtCall where
  | search : PyStr → ExtCall
  | fetch : PyStr → ExtCall
  | moderate : PyStr → ExtCall
  | generate : List PyStr → ExtCall
deriving DecidableEq

/-- The two external collaborators, as a deterministic oracle.  `Option.none`
/ `Except.error` model a failed or malformed call (network error, bad
payload, ...).  `anthropicConfigured` is the single configuration gate
(`anthropic_client` in the source) shared by moderation and generation. -/
structure World where
  searchResp : PyStr → Option (List Candidate)
  fetchResp : PyStr → Option (List RawNode)
  anthropicConfigured : Bool
  modResp : PyStr → Except Unit PyStr
  genResp : List PyStr → Except Unit PyStr

/-- The HTTP-visible error outcomes of `get_professor`: the explicit 400 and
404 `HTTPException`s, and `raised` for an uncaught Python exception. -/
inductive HErr where
  | badRequest : PyStr → HErr
  | notFound : PyStr → HErr
  | raised : HErr
deriving DecidableEq

/-- `name.replace('"', '')` applied to the query before it is interpolated
into the GraphQL request (main.py line 96). -/
def queryName (name : PyStr) : PyStr := name.filter (fun c => !(c == '\"'))

/-- The token set of the query: `name.lower().split()` (main.py line 115). -/
def nameParts (name : PyStr) : List PyStr := pySplit (pyLower name)

/-- The per-candidate test of main.py lines 117-119: the trimmed lowercased
last and first names must both occur as whole tokens of the query. -/
def candMatches (parts : List PyStr) (p : Candidate) : Bool :=
  decide (pyStrip (pyLower p.lastName) ∈ parts) &&
    decide (pyStrip (pyLower p.firstName) ∈ parts)

/-- The `for prof in rated` loop of main.py lines 116-120: first match wins. -/
def matchLoop (parts : List PyStr) : List Candidate → Option Candidate
  | [] => Option.none
  | p :: rest => if candMatches parts p then Option.some p else matchLoop parts rest

/-- The pure part of `search_professor` (main.py lines 106-123): drop
unrated candidates, then scan for the first token-level name match. -/
def match_professor (name : PyStr) (edges : List Candidate) : Option Candidate :=
  if edges = [] then Option.none
  else
    let rated := edges.filter (fun c => decide (0 < c.numRatings))
    if rated = [] then Option.none
    else matchLoop (nameParts name) rated

/-- `search_professor` (main.py lines 75-123): a failed request (lines
98-104) yields `None`, otherwise the response edges go through the matcher. -/
def search_professor (w : World) (name : PyStr) : Option Candidate :=
  match w.searchResp (queryName name) with
  | Option.none => Option.none
  | Option.some edges => match_professor name edges

/-- The single external request `search_professor` issues. -/
def search_calls (name : PyStr) : List ExtCall := [ExtCall.search (queryName name)]

/-- `(node.get("comment") or "").strip()` (main.py line 158). -/
def strippedComment (n : RawNode) : PyStr := pyStrip (n.comment.getD [])

/-- One iteration of the sanitization loop of `fetch_reviews` (main.py lines
156-168): `Except.ok Option.none` is the `continue` for an empty comment,
`Except.error` a raised exception from `float(...)`. -/
def sanitize_node (n : RawNode) : Except Unit (Option Review) :=
  if strippedComment n = [] then Except.ok Option.none
  else
    match pyFloatOf (pyOr n.qualityRating (PyVal.num 0)) with
    | Except.error e => Except.error e
    | Except.ok r =>
      Except.ok (Option.some
        { rating := r
          text := strippedComment n
          course :=
            match n.classLabel with
            | Option.some cl => if cl = [] then Option.none else Option.some cl
            | Option.none => Option.none
          date :=
            match n.date with
            | Option.some d => if d = [] then Option.none else Option.some (d.take 10)
            | Option.none => Option.none })

/-- The whole sanitization loop of `fetch_reviews`: like the Python `for`,
it raises at the first bad node and otherwise appends in order. -/
def sanitize_reviews : List RawNode → Except Unit (List Review)
  | [] => Except.ok []
  | n :: rest =>
    match sanitize_node n with
    | Except.error e => Except.error e
    | Except.ok Option.none => sanitize_reviews rest
    | Except.ok (Option.some rev) =>
      match sanitize_reviews rest with
      | Except.error e => Except.error e
      | Except.ok l => Except.ok (rev :: l)

/-- `fetch_reviews` (main.py lines 126-170): a failed request degrades to
`[]` (lines 147-153), a successful one runs the sanitization loop. -/
def fetch_result (w : World) (profId : PyStr) : Except Unit (List Review) :=
  match w.fetchResp profId with
  | Option.none => Except.ok []
  | Option.some nodes => sanitize_reviews nodes

/-- The single external request `fetch_reviews` issues. -/
def fetch_calls (profId : PyStr) : List ExtCall := [ExtCall.fetch profId]

/-- `is_abusive` (main.py lines 187-203): unconfigured client short-circuits
to `False`; otherwise the first 512 characters are submitted and only a
response whose stripped uppercase text equals `"YES"` flags the review;
any failure is absorbed to `False`. -/
def is_abusive (w : World) (text : PyStr) : Bool :=
  if w.anthropicConfigured = false then false
  else
    match w.modResp (text.take 512) with
    | Except.ok s => decide (pyUpper (pyStrip s) = toPy "YES")
    | Except.error _ => false

/-- The external requests one `is_abusive` call issues (none when the
client is unconfigured; otherwise exactly one, carrying the truncated
text). -/
def is_abusive_calls (w : World) (text : PyStr) : List ExtCall :=
  if w.anthropicConfigured = false then [] else [ExtCall.moderate (text.take 512)]

/-- The filter of main.py line 266: keep the reviews `is_abusive` rejects,
preserving order. -/
def filter_abusive (w : World) : List Review → List Review
  | [] => []
  | r :: rest =>
    if is_abusive w r.text then filter_abusive w rest
    else r :: filter_abusive w rest

/-- The external requests issued while moderating a review list. -/
def moderation_calls (w : World) : List Review → List ExtCall
  | [] => []
  | r :: rest => is_abusive_calls w r.text ++ moderation_calls w rest

/-- `_fallback_summary` (main.py lines 226-233). -/
def fallback_summary (texts : List PyStr) : PyStr :=
  if texts = [] then toPy "No reviews available to summarize."
  else
    toPy "Based on " ++ toPy (toString texts.length) ++ toPy " student review" ++
      (if texts.length ≠ 1 then toPy "s" else []) ++
      toPy " from Rate My Professor. See individual reviews below for details."

/-- `summarize_reviews` (main.py lines 206-223): fallback when the client is
unconfigured, the text list is empty, or the generation call fails;
otherwise the generator's stripped response. -/
def summarize_reviews (w : World) (texts : List PyStr) : PyStr :=
  if w.anthropicConfigured = false ∨ texts = [] then fallback_summary texts
  else
    match w.genResp texts with
    | Except.ok s => pyStrip s
    | Except.error _ => fallback_summary texts

/-- The external requests one `summarize_reviews` call issues. -/
def summarize_calls (w : World) (texts : List PyStr) : List ExtCall :=
  if w.anthropicConfigured = false ∨ texts = [] then [] else [ExtCall.generate texts]

/-- `_cache_key` (main.py lines 239-240):
`re.sub(r"\s+", " ", name.strip().lower())`. -/
def cache_key (name : PyStr) : PyStr := collapseWs (pyLower (pyStrip name))

/-- The in-memory cache `_cache` (main.py line 237), newest entry first. -/
abbrev Cache := List (PyStr × ProfessorData)

/-- The 400 detail string (main.py line 248). -/
def msg400 : PyStr := toPy "Professor name is required."

/-- The 404 detail string (main.py line 258). -/
def notFoundMsg (name : PyStr) : PyStr :=
  toPy "No professor found for '" ++ name ++ toPy "' at UW Tacoma."

/-- The response assembly of main.py lines 272-281, given the matched
candidate, the summary, and the moderated clean reviews.  Note the Python
truthiness guards: `prof.get("difficulty")` and
`prof.get("wouldTakeAgainPercent")` are falsy for an absent *and* for a
zero value. -/
def buildResult (prof : Candidate) (summary : PyStr) (reviews : List Review) : ProfessorData :=
  { name := prof.firstName ++ toPy " " ++ prof.lastName
    rating := round1 prof.rating
    difficulty :=
      if pyTruthyOQ prof.difficulty then Option.some (round1 (prof.difficulty.getD 0))
      else Option.none
    wouldTakeAgain :=
      if pyTruthyOQ prof.wouldTakeAgainPercent ∧ 0 ≤ prof.wouldTakeAgainPercent.getD 0 then
        Option.some (round1 (prof.wouldTakeAgainPercent.getD 0))
      else Option.none
    numRatings := prof.numRatings
    department := prof.department
    summary := summary
    reviews := reviews }

/-- Steps 2-5 of `get_professor` (main.py lines 262-281) for a matched
candidate: fetch results already sanitized, moderate, summarize, assemble. -/
def assembled (w : World) (prof : Candidate) (raws : List Review) : ProfessorData :=
  buildResult prof
    (summarize_reviews w ((filter_abusive w raws).map Review.text))
    (filter_abusive w raws)

deriving instance DecidableEq for Except

/-- The observable result of one `get_professor` request: the HTTP outcome,
the cache afterwards, and the external requests issued. -/
structure StepRes where
  out : Except HErr ProfessorData
  cache : Cache
  trace : List ExtCall
deriving DecidableEq

/-- The `/professor` endpoint `get_professor` (main.py lines 245-284). -/
def get_professor (w : World) (cache : Cache) (name : PyStr) : StepRes :=
  if name = [] ∨ pyStrip name = [] then
    ⟨Except.error (HErr.badRequest msg400), cache, []⟩
  else
    match List.lookup (cache_key name) cache with
    | Option.some r => ⟨Except.ok r, cache, []⟩
    | Option.none =>
      match search_professor w name with
      | Option.none =>
        ⟨Except.error (HErr.notFound (notFoundMsg name)), cache, search_calls name⟩
      | Option.some prof =>
        match fetch_result w prof.id with
        | Except.error _ =>
          ⟨Except.error HErr.raised, cache, search_calls name ++ fetch_calls prof.id⟩
        | Except.ok raws =>
          ⟨Except.ok (assembled w prof raws),
            (cache_key name, assembled w prof raws) :: cache,
            search_calls name ++ fetch_calls prof.id ++ moderation_calls w raws ++
              summarize_calls w ((filter_abusive w raws).map Review.text)⟩

/-- Recognizer for the string case of `PyVal` (used to state which
`qualityRating` values the sanitizer is total on). -/
def qrIsStr : PyVal → Bool
  | PyVal.str _ => true
  | PyVal.none => false
  | PyVal.num _ => false

/- Concrete fixtures used by the witness and counterexample theorems. -/

/-- An oracle where every external call fails and no client is configured. -/
def wBase : World :=
  { searchResp := fun _ => Option.none
    fetchResp := fun _ => Option.none
    anthropicConfigured := false
    modResp := fun _ => Except.error ()
    genResp := fun _ => Except.error () }

/-- A rated candidate named Jane Doe. -/
def cand1 : Candidate :=
  { id := toPy "VGVhY2hlci0x"
    firstName := toPy "Jane"
    lastName := toPy "Doe"
    rating := 4
    difficulty := Option.none
    wouldTakeAgainPercent := Option.none
    numRatings := 12
    department := Option.none }

/-- A candidate whose `wouldTakeAgainPercent` is present and exactly 0. -/
def candWta0 : Candidate := { cand1 with wouldTakeAgainPercent := Option.some 0 }

/-- A candidate whose `wouldTakeAgainPercent` is present and positive. -/
def candWtaPos : Candidate := { cand1 with wouldTakeAgainPercent := Option.some 2 }

/-- A candidate whose `difficulty` is present and exactly 0. -/
def candD0 : Candidate := { cand1 with difficulty := Option.some 0 }

/-- A raw review whose `qualityRating` is a truthy non-numeric string. -/
def badNode : RawNode :=
  { comment := Option.some (toPy "hi")
    qualityRating := PyVal.str (toPy "abc")
    classLabel := Option.none
    date := Option.none }

/-- A raw review with a paddable comment and a numeric rating. -/
def nodeA : RawNode :=
  { comment := Option.some (toPy " Great lectures ")
    qualityRating := PyVal.num 4
    classLabel := Option.none
    date := Option.none }

/-- A raw review whose comment is whitespace only. -/
def nodeWs : RawNode :=
  { comment := Option.some (toPy "   ")
    qualityRating := PyVal.num 5
    classLabel := Option.none
    date := Option.none }

/-- A raw review with an absent (null) `qualityRating`. -/
def nodeNoQr : RawNode :=
  { comment := Option.some (toPy "ok")
    qualityRating := PyVal.none
    classLabel := Option.none
    date := Option.none }

/-- The clean review produced from `nodeA`. -/
def revA : Review :=
  { rating := 4, text := toPy "Great lectures", course := Option.none, date := Option.none }

/-- An oracle whose search always returns the single candidate `cand1` and
whose review fetch fails (degrading to no reviews). -/
def wS : World := { wBase with searchResp := fun _ => Option.some [cand1] }

/-- An oracle whose search succeeds with zero candidates. -/
def wNF : World := { wBase with searchResp := fun _ => Option.some [] }

/-- An oracle with a configured client whose moderation always answers
`" yes "`. -/
def wMod : World :=
  { wBase with anthropicConfigured := true, modResp := fun _ => Except.ok (toPy " yes ") }

/-- An oracle with a configured client whose generator answers whitespace
only. -/
def wGenBlank : World :=
  { wBase with anthropicConfigured := true, genResp := fun _ => Except.ok (toPy "   ") }

/-- The record `get_professor` assembles for `cand1` when the review fetch
fails and no client is configured. -/
def r1 : ProfessorData :=
  { name := toPy "Jane Doe"
    rating := 4
    difficulty := Option.none
    wouldTakeAgain := Option.none
    numRatings := 12
    department := Option.none
    summary := toPy "No reviews available to summarize."
    reviews := [] }

/-! Theorems. -/

/-- The scan of main.py lines 116-120 is exactly `List.find?`. -/
theorem matchLoop_eq_find (parts : List PyStr) (l : List Candidate) :
    matchLoop parts l = l.find? (candMatches parts) := by
  induction l with
  | nil => rfl
  | cons p rest ih =>
    cases h : candMatches parts p with
    | true => simp [matchLoop, h, List.find?_cons_of_pos _ h]
    | false =>
      rw [List.find?_cons_of_neg _ (by simp [h])]
      simp [matchLoop, h, ih]

/-- C3: the name matcher first discards every candidate with
`numRatings <= 0` and then returns the first remaining candidate, in input
order, whose trimmed lowercased first and last names both occur as whole
whitespace tokens of the lowercased query; any returned candidate is a
rated member of the input satisfying the token test, and if no candidate
satisfies it the result is `none` (in particular a candidate with
`numRatings = 0` is never returned). -/
theorem name_matcher_spec (name : PyStr) (edges : List Candidate) :
    match_professor name edges =
      (edges.filter (fun c => decide (0 < c.numRatings))).find?
        (candMatches (nameParts name)) ∧
    (∀ p, match_professor name edges = Option.some p →
      0 < p.numRatings ∧ candMatches (nameParts name) p = true ∧ p ∈ edges) := by
  have hmain : match_professor name edges =
      (edges.filter (fun c => decide (0 < c.numRatings))).find?
        (candMatches (nameParts name)) := by
    unfold match_professor
    by_cases he : edges = []
    · subst he; simp
    · simp only [if_neg he]
      by_cases hr : edges.filter (fun c => decide (0 < c.numRatings)) = []
      · simp [hr]
      · simp [hr, matchLoop_eq_find]
  refine ⟨hmain, fun p hp => ?_⟩
  rw [hmain] at hp
  have h1 := List.find?_some hp
  have h3 := List.mem_filter.1 (List.mem_of_find?_eq_some hp)
  exact ⟨by simpa using h3.2, h1, h3.1⟩

/-- Witness for `name_matcher_spec`, at the query `"jane x doe"` and the
single rated candidate `cand1`. -/
theorem name_matcher_spec_wit :
    0 < cand1.numRatings ∧
      candMatches (nameParts (toPy "jane x doe")) cand1 = true ∧ cand1 ∈ [cand1] :=
  (name_matcher_spec (toPy "jane x doe") [cand1]).2 cand1 (by decide)

/-- C1, counterexample: a candidate whose `wouldTakeAgainPercent` is
present and exactly 0 — so present and `≥ 0`, which the claim says yields a
present field with value 0.0 — produces an absent `wouldTakeAgain` field,
because `prof.get("wouldTakeAgainPercent")` is falsy for 0. -/
theorem wouldTakeAgain_zero_cex :
    candWta0.wouldTakeAgainPercent = Option.some 0 ∧ (0 : ℚ) ≤ 0 ∧
      (buildResult candWta0 [] []).wouldTakeAgain = Option.none := by decide

/-- C1, amended: the assembled `wouldTakeAgain` field is present iff the
source value was present and strictly positive (a zero source value is
treated like an absent one by the Python truthiness test), and when present
it is the source value rounded to one decimal. -/
theorem wouldTakeAgain_presence (prof : Candidate) (s : PyStr) (rv : List Review) :
    ((buildResult prof s rv).wouldTakeAgain = Option.none ↔
      ∀ q : ℚ, prof.wouldTakeAgainPercent = Option.some q → q ≤ 0) ∧
    (∀ q : ℚ, prof.wouldTakeAgainPercent = Option.some q → 0 < q →
      (buildResult prof s rv).wouldTakeAgain = Option.some (round1 q)) := by
  cases hp : prof.wouldTakeAgainPercent with
  | none =>
    constructor
    · simp [buildResult, pyTruthyOQ, hp]
    · intro q hq
      exact absurd hq (by simp)
  | some q =>
    have hval : (buildResult prof s rv).wouldTakeAgain =
        if 0 < q then Option.some (round1 q) else Option.none := by
      simp only [buildResult, hp, pyTruthyOQ, Option.getD_some]
      by_cases hq : 0 < q
      · rw [if_pos hq, if_pos ⟨by simp [ne_of_gt hq], le_of_lt hq⟩]
      · rw [if_neg hq, if_neg ?_]
        rintro ⟨hne, hle⟩
        rw [decide_eq_true_eq] at hne
        exact hq (lt_of_le_of_ne hle (Ne.symm hne))
    constructor
    · rw [hval]
      by_cases hq : 0 < q
      · simp only [if_pos hq, hp]
        constructor
        · intro h; cases h
        · intro h
          exact absurd (h q rfl) (not_le.2 hq)
      · simp only [if_neg hq, hp]
        constructor
        · intro _ q' hq'
          obtain rfl : q = q' := by simpa using hq'
          exact not_lt.1 hq
        · intro _; trivial
    · intro q' hq' hpos
      obtain rfl : q = q' := by simpa using hq'
      rw [hval, if_pos hpos]

/-- Witness for `wouldTakeAgain_presence`, at a candidate whose source
value is `2`. -/
theorem wouldTakeAgain_presence_wit :
    (buildResult candWtaPos [] []).wouldTakeAgain = Option.some (round1 2) :=
  (wouldTakeAgain_presence candWtaPos [] []).2 2 rfl (by norm_num)

/-- C10: a matched candidate whose source difficulty value is present and
exactly 0 yields an absent `difficulty` field in the assembled record — the
Python truthiness check `prof.get("difficulty")` treats a zero value like
an absent one. -/
theorem difficulty_zero_absent (prof : Candidate) (s : PyStr) (rv : List Review)
    (h : prof.difficulty = Option.some 0) :
    (buildResult prof s rv).difficulty = Option.none := by
  simp [buildResult, pyTruthyOQ, h]

/-- Witness for `difficulty_zero_absent`, at a candidate with difficulty
exactly 0. -/
theorem difficulty_zero_absent_wit :
    (buildResult candD0 [] []).difficulty = Option.none :=
  difficulty_zero_absent candD0 [] [] rfl

/-- Case analysis of one sanitization step: an empty stripped comment is
skipped, otherwise the step either raises (a bad `float`) or yields a
review whose text is the stripped comment, with rating 0 when
`qualityRating` was absent. -/
theorem sanitize_node_cases (n : RawNode) :
    (strippedComment n = [] ∧ sanitize_node n = Except.ok Option.none) ∨
    (strippedComment n ≠ [] ∧ sanitize_node n = Except.error ()) ∨
    (strippedComment n ≠ [] ∧ ∃ rev : Review,
      sanitize_node n = Except.ok (Option.some rev) ∧
      rev.text = strippedComment n ∧
      (n.qualityRating = PyVal.none → rev.rating = 0)) := by
  by_cases hc : strippedComment n = []
  · exact Or.inl ⟨hc, by simp [sanitize_node, hc]⟩
  · right
    cases hf : pyFloatOf (pyOr n.qualityRating (PyVal.num 0)) with
    | error e =>
      exact Or.inl ⟨hc, by simp [sanitize_node, hc, hf]⟩
    | ok q =>
      refine Or.inr ⟨hc,
        { rating := q
          text := strippedComment n
          course :=
            match n.classLabel with
            | Option.some cl => if cl = [] then Option.none else Option.some cl
            | Option.none => Option.none
          date :=
            match n.date with
            | Option.some d => if d = [] then Option.none else Option.some (d.take 10)
            | Option.none => Option.none }, ?_, rfl, ?_⟩
      · simp [sanitize_node, hc, hf]
      · intro hq
        rw [hq] at hf
        simp [pyOr, pyTruthyVal, pyFloatOf] at hf
        exact hf.symm

/-- C6: a successful run of the sanitization loop never contains a review
with empty text, and its output length is exactly the number of raw
reviews whose comment is non-empty after trimming (whitespace-only
comments are dropped). -/
theorem sanitize_text_nonempty (nodes : List RawNode) (l : List Review)
    (h : sanitize_reviews nodes = Except.ok l) :
    (∀ rev ∈ l, rev.text ≠ []) ∧
    l.length = (nodes.filter (fun n => decide (strippedComment n ≠ []))).length := by
  induction nodes generalizing l with
  | nil =>
    simp only [sanitize_reviews] at h
    obtain rfl : l = [] := by simpa using h.symm
    simp
  | cons n rest ih =>
    rcases sanitize_node_cases n with ⟨hc, hnode⟩ | ⟨hc, hnode⟩ | ⟨hc, rev, hnode, htext, -⟩
    · simp only [sanitize_reviews, hnode] at h
      obtain ⟨h1, h2⟩ := ih l h
      exact ⟨h1, by simp [hc, h2]⟩
    · simp only [sanitize_reviews, hnode] at h
      exact absurd h (by simp)
    · simp only [sanitize_reviews, hnode] at h
      cases hrest : sanitize_reviews rest with
      | error e =>
        rw [hrest] at h
        exact absurd h (by simp)
      | ok l' =>
        rw [hrest] at h
        obtain rfl : l = rev :: l' := by simpa using h.symm
        obtain ⟨h1, h2⟩ := ih l' hrest
        constructor
        · intro x hx
          rcases List.mem_cons.1 hx with hx | hx
          · rw [hx, htext]; exact hc
          · exact h1 x hx
        · simp [hc, h2]

/-- Witness for `sanitize_text_nonempty`, at a two-node list whose second
node has a whitespace-only comment. -/
theorem sanitize_text_nonempty_wit : revA.text ≠ [] :=
  (sanitize_text_nonempty [nodeA, nodeWs] [revA] (by decide)).1 revA (by decide)

/-- `float(x or 0)` cannot raise when `x` is not a string. -/
theorem pyFloatOf_or_zero_ok (v : PyVal) (h : qrIsStr v = false) :
    ∃ q, pyFloatOf (pyOr v (PyVal.num 0)) = Except.ok q := by
  cases v with
  | none => exact ⟨0, rfl⟩
  | num q =>
    by_cases h0 : q = 0
    · subst h0; exact ⟨0, rfl⟩
    · exact ⟨q, by simp [pyOr, pyTruthyVal, h0, pyFloatOf]⟩
  | str s => simp [qrIsStr] at h

/-- A review node whose stripped comment is non-empty and whose
`qualityRating` does not raise produces exactly itself sanitized. -/
theorem sanitize_node_ok_of_float_ok (n : RawNode) (q : ℚ)
    (hc : strippedComment n ≠ [])
    (hf : pyFloatOf (pyOr n.qualityRating (PyVal.num 0)) = Except.ok q) :
    ∃ rev : Review, sanitize_node n = Except.ok (Option.some rev) := by
  refine ⟨{ rating := q
            text := strippedComment n
            course :=
              match n.classLabel with
              | Option.some cl => if cl = [] then Option.none else Option.some cl
              | Option.none => Option.none
            date :=
              match n.date with
              | Option.some d => if d = [] then Option.none else Option.some (d.take 10)
              | Option.none => Option.none }, ?_⟩
  simp [sanitize_node, hc, hf]

/-- C2, amended: sanitization is total on every raw review whose
`qualityRating` is absent or numeric — no such input raises, and an absent
`qualityRating` degrades to rating 0 — but it is not total outright: a
truthy non-numeric string `qualityRating` (with a non-empty comment) makes
`float(...)` raise, see `sanitize_raises_cex`. -/
theorem sanitize_total_on_typed_input (nodes : List RawNode)
    (h : ∀ n ∈ nodes, qrIsStr n.qualityRating = false) :
    (∃ l, sanitize_reviews nodes = Except.ok l) ∧
    (∀ n : RawNode, ∀ rev : Review, sanitize_node n = Except.ok (Option.some rev) →
      n.qualityRating = PyVal.none → rev.rating = 0) := by
  constructor
  · induction nodes with
    | nil => exact ⟨[], rfl⟩
    | cons n rest ih =>
      obtain ⟨l, hl⟩ := ih (fun m hm => h m (List.mem_cons_of_mem n hm))
      by_cases hc : strippedComment n = []
      · exact ⟨l, by simp [sanitize_reviews, sanitize_node, hc, hl]⟩
      · obtain ⟨q, hq⟩ := pyFloatOf_or_zero_ok n.qualityRating (h n (List.mem_cons_self n rest))
        obtain ⟨rev, hrev⟩ := sanitize_node_ok_of_float_ok n q hc hq
        exact ⟨rev :: l, by simp [sanitize_reviews, hrev, hl]⟩
  · intro n rev hrev hq
    rcases sanitize_node_cases n with ⟨-, hnode⟩ | ⟨-, hnode⟩ | ⟨-, rev', hnode, -, hdef⟩
    · rw [hnode] at hrev
      exact absurd hrev (by simp)
    · rw [hnode] at hrev
      exact absurd hrev (by simp)
    · rw [hnode] at hrev
      obtain rfl : rev' = rev := by simpa using hrev
      exact hdef hq

/-- C2, counterexample: the sanitization loop raises (uncaught
`ValueError` from `float("abc")`) on a review whose comment is non-empty
and whose `qualityRating` is the non-numeric string `"abc"` — so it is not
a total function on raw review records. -/
theorem sanitize_raises_cex : sanitize_reviews [badNode] = Except.error () := by decide

/-- Witness for `sanitize_total_on_typed_input`, at a single node with an
absent `qualityRating`. -/
theorem sanitize_total_wit : ∃ l, sanitize_reviews [nodeNoQr] = Except.ok l :=
  (sanitize_total_on_typed_input [nodeNoQr] (by decide)).1

/-- C7: the abuse check issues no external call and returns `false` when
the client is unconfigured; otherwise it submits exactly the first 512
characters of the text in one moderation call, and it returns `true`
exactly when the call succeeded and the response, stripped and
uppercased, equals `"YES"` — in particular every failure of the call
yields `false`, and no error propagates. -/
theorem is_abusive_spec (w : World) (text : PyStr) :
    (w.anthropicConfigured = false →
      is_abusive w text = false ∧ is_abusive_calls w text = []) ∧
    (w.anthropicConfigured = true →
      is_abusive_calls w text = [ExtCall.moderate (text.take 512)] ∧
      (text.take 512).length ≤ 512 ∧
      text.take 512 ++ text.drop 512 = text ∧
      (is_abusive w text = true ↔
        ∃ s, w.modResp (text.take 512) = Except.ok s ∧
          pyUpper (pyStrip s) = toPy "YES")) := by
  constructor
  · intro h
    exact ⟨by simp [is_abusive, h], by simp [is_abusive_calls, h]⟩
  · intro h
    refine ⟨by simp [is_abusive_calls, h], List.length_take_le _ _,
      List.take_append_drop _ _, ?_⟩
    simp only [is_abusive, h]
    cases hm : w.modResp (text.take 512) with
    | ok s => simp [hm]
    | error e => simp [hm]

/-- Witness for `is_abusive_spec`: a configured client whose classifier
answers `" yes "` flags the text. -/
theorem is_abusive_spec_wit : is_abusive wMod (toPy "some text") = true :=
  (((is_abusive_spec wMod (toPy "some text")).2 rfl).2.2.2).mpr
    ⟨toPy " yes ", rfl, by decide⟩

/-- The fallback summary is never the empty string. -/
theorem fallback_summary_ne_nil (texts : List PyStr) : fallback_summary texts ≠ [] := by
  unfold fallback_summary
  by_cases h : texts = []
  · rw [if_pos h]; decide
  · rw [if_neg h]
    rw [show toPy "Based on " = 'B' :: toPy "ased on " from rfl]
    simp

/-- The fallback summary for a non-empty list spells out the count with the
correct singular or plural noun. -/
theorem fallback_summary_eq (texts : List PyStr) (h : texts ≠ []) :
    fallback_summary texts =
      toPy "Based on " ++ toPy (toString texts.length) ++ toPy " student review" ++
        (if texts.length = 1 then [] else toPy "s") ++
        toPy " from Rate My Professor. See individual reviews below for details." := by
  rw [fallback_summary, if_neg h]
  simp only [ne_eq, ite_not]

/-- C4, amended: the summarizer returns the fixed no-reviews message for an
empty input; for a non-empty input with an unconfigured client or a failed
generation call it returns the non-empty fallback sentence reporting the
count with correct singular/plural phrasing; and for a successful call it
returns the generator's trimmed response — which, contrary to the original
claim, can be empty: the output is empty only when the generator answered
whitespace, see `summarizer_empty_cex`. -/
theorem summarizer_spec (w : World) (texts : List PyStr) :
    (texts = [] → summarize_reviews w texts = toPy "No reviews available to summarize.") ∧
    (texts ≠ [] → (w.anthropicConfigured = false ∨ w.genResp texts = Except.error ()) →
      summarize_reviews w texts =
        toPy "Based on " ++ toPy (toString texts.length) ++ toPy " student review" ++
          (if texts.length = 1 then [] else toPy "s") ++
          toPy " from Rate My Professor. See individual reviews below for details." ∧
      summarize_reviews w texts ≠ []) ∧
    (∀ s, w.anthropicConfigured = true → texts ≠ [] → w.genResp texts = Except.ok s →
      summarize_reviews w texts = pyStrip s) ∧
    (summarize_reviews w texts = [] →
      ∃ s, w.anthropicConfigured = true ∧ texts ≠ [] ∧
        w.genResp texts = Except.ok s ∧ pyStrip s = []) := by
  refine ⟨?_, ?_, ?_, ?_⟩
  · intro h
    subst h
    simp [summarize_reviews, fallback_summary]
  · intro hne hfail
    have hfb : summarize_reviews w texts = fallback_summary texts := by
      rcases hfail with hconf | herr
      · simp [summarize_reviews, hconf]
      · by_cases hconf : w.anthropicConfigured = false
        · simp [summarize_reviews, hconf]
        · unfold summarize_reviews
          rw [if_neg (by rintro (h | h); exacts [hconf h, hne h]), herr]
    rw [hfb]
    exact ⟨fallback_summary_eq texts hne, fallback_summary_ne_nil texts⟩
  · intro s hconf hne hok
    unfold summarize_reviews
    rw [if_neg (by rintro (h | h); exacts [(by rw [hconf] at h; exact Bool.noConfusion h), hne h]), hok]
  · intro hempty
    by_cases hcond : w.anthropicConfigured = false ∨ texts = []
    · unfold summarize_reviews at hempty
      rw [if_pos hcond] at hempty
      exact absurd hempty (fallback_summary_ne_nil texts)
    · have hconf : w.anthropicConfigured = true := by
        cases hb : w.anthropicConfigured
        · exact absurd (Or.inl hb) hcond
        · rfl
      have hne : texts ≠ [] := fun h => hcond (Or.inr h)
      unfold summarize_reviews at hempty
      rw [if_neg hcond] at hempty
      cases hg : w.genResp texts with
      | ok s =>
        rw [hg] at hempty
        exact ⟨s, hconf, hne, by simp [hg], hempty⟩
      | error e =>
        rw [hg] at hempty
        exact absurd hempty (fallback_summary_ne_nil texts)

/-- C4, counterexample: with a configured client whose generator answers
only whitespace, the summarizer returns the empty string on a non-empty
review list — the claim that it always returns a non-empty string fails. -/
theorem summarizer_empty_cex :
    summarize_reviews wGenBlank [toPy "Great lectures"] = [] := by decide

/-- Witness for `summarizer_spec`: one review text with an unconfigured
client produces the singular fallback sentence. -/
theorem summarizer_spec_wit :
    summarize_reviews wBase [toPy "a"] =
      toPy "Based on " ++ toPy (toString ([toPy "a"].length)) ++ toPy " student review" ++
        (if [toPy "a"].length = 1 then [] else toPy "s") ++
        toPy " from Rate My Professor. See individual reviews below for details." :=
  ((summarizer_spec wBase [toPy "a"]).2.1 (by decide) (Or.inl rfl)).1

/-- C8: a query name that is empty or whitespace-only is rejected
immediately with the 400 client-error outcome: the cache is returned
unchanged, no external call is recorded, and the outcome is distinct from
every not-found outcome. -/
theorem empty_name_rejected (w : World) (c : Cache) (name : PyStr)
    (h : pyStrip name = []) :
    get_professor w c name = ⟨Except.error (HErr.badRequest msg400), c, []⟩ ∧
    ∀ m, HErr.badRequest msg400 ≠ HErr.notFound m := by
  refine ⟨?_, fun m => by simp⟩
  unfold get_professor
  rw [if_pos (Or.inr h)]

/-- Witness for `empty_name_rejected`, at the whitespace-only name. -/
theorem empty_name_rejected_wit :
    get_professor wBase [] (toPy "   ") =
      ⟨Except.error (HErr.badRequest msg400), [], []⟩ :=
  (empty_name_rejected wBase [] (toPy "   ") (by decide)).1

/-- Collapsing whitespace runs never empties a non-empty string. -/
theorem collapseWs_ne_nil (s : PyStr) (h : s ≠ []) : collapseWs s ≠ [] := by
  match s with
  | [] => exact absurd rfl h
  | c :: rest =>
    simp only [collapseWs, collapseWsAux]
    by_cases hw : pyIsSpace c
    · simp [hw]
    · simp [hw]

/-- The cache key of a name is empty exactly when the stripped name is
empty — i.e. exactly when the 400 guard of `get_professor` fires. -/
theorem cache_key_eq_nil_iff (name : PyStr) : cache_key name = [] ↔ pyStrip name = [] := by
  constructor
  · intro h
    by_contra hne
    exact collapseWs_ne_nil (pyLower (pyStrip name)) (by simpa [pyLower] using hne) h
  · intro h
    simp [cache_key, h, pyLower, collapseWs, collapseWsAux]

/-- C9: a resolution that ends in any error outcome leaves the cache
unchanged (the cache write happens only as the last step of a successful
assembly), and for a not-found outcome the request issued exactly one
search call; since the cache is unchanged, repeating the same query re-runs
the pipeline identically — in particular it re-invokes the search service,
so negative results are never cached. -/
theorem error_leaves_cache (w : World) (c : Cache) (name : PyStr) (e : HErr)
    (h : (get_professor w c name).out = Except.error e) :
    (get_professor w c name).cache = c ∧
    (∀ m, e = HErr.notFound m →
      (get_professor w c name).trace = search_calls name ∧
      get_professor w ((get_professor w c name).cache) name = get_professor w c name) := by
  by_cases hg : name = [] ∨ pyStrip name = []
  · have hG : get_professor w c name = ⟨Except.error (HErr.badRequest msg400), c, []⟩ := by
      unfold get_professor
      rw [if_pos hg]
    have he : e = HErr.badRequest msg400 := by
      rw [hG] at h
      simpa using h.symm
    subst he
    exact ⟨by rw [hG], fun m hm => HErr.noConfusion hm⟩
  · cases hc : List.lookup (cache_key name) c with
    | some r =>
      have hG : get_professor w c name = ⟨Except.ok r, c, []⟩ := by
        simp [get_professor, hg, hc]
      rw [hG] at h
      exact absurd h (by simp)
    | none =>
      cases hs : search_professor w name with
      | none =>
        have hG : get_professor w c name =
            ⟨Except.error (HErr.notFound (notFoundMsg name)), c, search_calls name⟩ := by
          simp [get_professor, hg, hc, hs]
        refine ⟨by rw [hG], fun m hm => ⟨by rw [hG], ?_⟩⟩
        rw [hG]
        show get_professor w c name = _
        exact hG
      | some prof =>
        cases hf : fetch_result w prof.id with
        | error err =>
          have hG : get_professor w c name =
              ⟨Except.error HErr.raised, c, search_calls name ++ fetch_calls prof.id⟩ := by
            simp [get_professor, hg, hc, hs, hf]
          have he : e = HErr.raised := by
            rw [hG] at h
            simpa using h.symm
          subst he
          exact ⟨by rw [hG], fun m hm => HErr.noConfusion hm⟩
        | ok raws =>
          have hG : get_professor w c name =
              ⟨Except.ok (assembled w prof raws),
                (cache_key name, assembled w prof raws) :: c,
                search_calls name ++ fetch_calls prof.id ++ moderation_calls w raws ++
                  summarize_calls w ((filter_abusive w raws).map Review.text)⟩ := by
            simp [get_professor, hg, hc, hs, hf]
          rw [hG] at h
          exact absurd h (by simp)

/-- Witness for `error_leaves_cache`: a search that returns zero candidates
yields not-found and writes nothing to the cache. -/
theorem error_leaves_cache_wit : (get_professor wNF [] (toPy "jane doe")).cache = [] :=
  (error_leaves_cache wNF [] (toPy "jane doe")
    (HErr.notFound (notFoundMsg (toPy "jane doe"))) (by decide)).1

/-- A successful resolution always leaves its own record findable under the
query's cache key (either it was a cache hit, or the record was just
stored under that key). -/
theorem get_professor_ok_lookup (w : World) (c : Cache) (name : PyStr) (r : ProfessorData)
    (h : (get_professor w c name).out = Except.ok r) :
    pyStrip name ≠ [] ∧
    List.lookup (cache_key name) ((get_professor w c name).cache) = Option.some r := by
  by_cases hg : name = [] ∨ pyStrip name = []
  · have hG : get_professor w c name = ⟨Except.error (HErr.badRequest msg400), c, []⟩ := by
      unfold get_professor
      rw [if_pos hg]
    rw [hG] at h
    exact absurd h (by simp)
  · have hstrip : pyStrip name ≠ [] := fun hh => hg (Or.inr hh)
    refine ⟨hstrip, ?_⟩
    cases hc : List.lookup (cache_key name) c with
    | some r' =>
      have hG : get_professor w c name = ⟨Except.ok r', c, []⟩ := by
        simp [get_professor, hg, hc]
      rw [hG] at h ⊢
      obtain rfl : r' = r := by simpa using h
      simpa using hc
    | none =>
      cases hs : search_professor w name with
      | none =>
        have hG : get_professor w c name =
            ⟨Except.error (HErr.notFound (notFoundMsg name)), c, search_calls name⟩ := by
          simp [get_professor, hg, hc, hs]
        rw [hG] at h
        exact absurd h (by simp)
      | some prof =>
        cases hf : fetch_result w prof.id with
        | error err =>
          have hG : get_professor w c name =
              ⟨Except.error HErr.raised, c, search_calls name ++ fetch_calls prof.id⟩ := by
            simp [get_professor, hg, hc, hs, hf]
          rw [hG] at h
          exact absurd h (by simp)
        | ok raws =>
          have hG : get_professor w c name =
              ⟨Except.ok (assembled w prof raws),
                (cache_key name, assembled w prof raws) :: c,
                search_calls name ++ fetch_calls prof.id ++ moderation_calls w raws ++
                  summarize_calls w ((filter_abusive w raws).map Review.text)⟩ := by
            simp [get_professor, hg, hc, hs, hf]
          rw [hG] at h ⊢
          obtain rfl : assembled w prof raws = r := by simpa using h
          simp [List.lookup]

/-- C5: resolution is idempotent through the cache: after any successful
resolution of `n1`, resolving any `n2` with the same normalized cache key
(trimmed, whitespace runs collapsed, lowercased) returns the identical
stored record, leaves the cache unchanged, and issues no external call. -/
theorem resolution_idempotent (w : World) (c : Cache) (n1 n2 : PyStr) (r : ProfessorData)
    (hk : cache_key n1 = cache_key n2)
    (h1 : (get_professor w c n1).out = Except.ok r) :
    get_professor w ((get_professor w c n1).cache) n2 =
      ⟨Except.ok r, (get_professor w c n1).cache, []⟩ := by
  obtain ⟨hs1, hl⟩ := get_professor_ok_lookup w c n1 r h1
  have hkey : cache_key n1 ≠ [] := fun hh => hs1 ((cache_key_eq_nil_iff n1).1 hh)
  have hs2 : pyStrip n2 ≠ [] := by
    intro hh
    exact hkey (hk.trans ((cache_key_eq_nil_iff n2).2 hh))
  have hg2 : ¬ (n2 = [] ∨ pyStrip n2 = []) := by
    rintro (rfl | hh)
    · exact hs2 rfl
    · exact hs2 hh
  have hl2 : List.lookup (cache_key n2) ((get_professor w c n1).cache) = Option.some r :=
    hk ▸ hl
  set c2 := (get_professor w c n1).cache with hc2
  unfold get_professor
  rw [if_neg hg2, hl2]

/-- Witness for `resolution_idempotent`: after resolving `"Jane Doe"`, the
differently-spelled `"  jane   DOE "` (same normalized key) is served the
identical record from the cache with no external calls. -/
theorem resolution_idempotent_wit :
    get_professor wS ((get_professor wS [] (toPy "Jane Doe")).cache) (toPy "  jane   DOE ") =
      ⟨Except.ok r1, (get_professor wS [] (toPy "Jane Doe")).cache, []⟩ :=
  resolution_idempotent wS [] (toPy "Jane Doe") (toPy "  jane   DOE ") r1
    (by decide) (by decide)

end RMP
